import Mathlib

/-!
Verification of the RPN calculator `ada.py` (tokenizer, stack-machine
evaluator, memory registers) against its natural-language specification.

Shallow embedding conventions:
* Python `decimal.Decimal` values are modelled as `ℚ`.  All arithmetic the
  theorems below evaluate is exact in both worlds (small integers and short
  decimal fractions, well inside Decimal's 28-significant-digit context);
  Decimal's context rounding, `NaN`/`Infinity` payloads and the
  float-vs-Decimal distinction of the literal `0.0` are not modelled.
  Operations whose Python result is produced through binary floating point
  (math.sqrt, math.log10, the trig functions, ...) or through context
  rounding that the claims never exercise are mapped to the explicit error
  tag `.notModelled`; no theorem below evaluates such an operation on the
  affected path.
* A Python exception that no handler catches is modelled as `Except.error`
  with a tag naming the exception; `.hang` marks inputs on which the
  source's `while` loop provably never terminates (unbalanced parentheses,
  which the caller `RPN()` filters out before evaluating).
* Strings are modelled as `List Char` / `String` over the ASCII fragment
  the program manipulates; `str.strip()` on a one-character string is
  modelled as dropping the space character, the only whitespace the
  scanner can encounter inside a run.
-/

namespace ada

/-- Uncaught-Python-exception / partial-model tags. -/
inductive PyErr where
  | indexError
  | invalidOperation
  | attributeError
  | typeError
  | unboundLocal
  | hang
  | notModelled
deriving DecidableEq, Repr

/-! ### Character classes of the scanner (`parse_entry`)

`digits` is `string.digits`; `letters = ascii_letters + '_' + ':'`;
`lower_letters = ascii_lowercase + '_' + ':'` (ada.py:3236-3237).
The identifier branch additionally admits any single character that is a
key of `op1` or `op2` (ada.py:249); the length-1 keys of `op1` are
`'!'`, `'n'`, `' '`, `'i'` and those of `op2` are
`'+' '-' '*' 'x' '/' '%' '^'` (ada.py:3261-3317). -/

def isDigitC (c : Char) : Bool := '0' ≤ c && c ≤ '9'

def isNumChar (c : Char) : Bool := isDigitC c || c = '-' || c = '.'

def isLowerLetters (c : Char) : Bool :=
  ('a' ≤ c && c ≤ 'z') || c = '_' || c = ':'

def isLetters (c : Char) : Bool :=
  isLowerLetters c || ('A' ≤ c && c ≤ 'Z')

def op1Chars : List Char := ['!', 'n', ' ', 'i']

def op2Chars : List Char := ['+', '-', '*', 'x', '/', '%', '^']

def isIdentStart (c : Char) : Bool :=
  isLetters c || op1Chars.contains c || op2Chars.contains c

/-- The identifier `while` loop of `parse_entry` (ada.py:251-265): the
current character is consumed; the run continues while the *next*
character is in `lower_letters`; a current `'M'` followed by one of
`+ - D L R` captures that character too and stops. Returns the consumed
run and the remaining input. -/
def identRunAux : Char → List Char → List Char × List Char
  | c, [] => ([c], [])
  | c, d :: rest =>
    if isLowerLetters d then
      let p := identRunAux d rest
      (c :: p.1, p.2)
    else if c = 'M' && (d = '+' || d = '-' || d = 'D' || d = 'L' || d = 'R') then
      ([c, d], rest)
    else ([c], d :: rest)

/-- The scanning `while` loop of `parse_entry` (ada.py:220-275), producing
the accumulated runs (`data`), register substitution not yet applied.
Fuel-indexed for structural recursion; every step consumes at least one
character, so `length + 1` fuel (see `scan`) never runs out. -/
def scanF : ℕ → List Char → List (List Char)
  | 0, _ => []
  | _ + 1, [] => []
  | fuel + 1, c :: rest =>
    if c = '(' || c = ')' then
      [c] :: scanF fuel rest
    else if isNumChar c then
      (c :: rest.takeWhile isNumChar) :: scanF fuel (rest.dropWhile isNumChar)
    else if isIdentStart c then
      let p := identRunAux c rest
      p.1.filter (fun x => x ≠ ' ') :: scanF fuel p.2
    else
      [] :: scanF fuel rest

def scan (cs : List Char) : List (List Char) := scanF (cs.length + 1) cs

/-! ### `Decimal(str)` parsing (ada.py:288)

Python's `Decimal` constructor on the strings the scanner can produce:
optional sign, then digits with at most one decimal point and at least
one digit. (`NaN`/`Infinity` spellings and exponent forms cannot reach
this conversion from the scanner and are not modelled.) -/

def natVal (cs : List Char) : ℕ :=
  cs.foldl (fun a c => 10 * a + (c.toNat - '0'.toNat)) 0

def parseDecCore (cs : List Char) : Option ℚ :=
  let intPart := cs.takeWhile isDigitC
  let rest := cs.dropWhile isDigitC
  match rest with
  | [] => if intPart = [] then none else some (natVal intPart)
  | '.' :: frac =>
    if frac.all isDigitC ∧ (intPart ≠ [] ∨ frac ≠ []) then
      some ((natVal intPart : ℚ) + (natVal frac : ℚ) / 10 ^ frac.length)
    else none
  | _ => none

def parseDec (cs : List Char) : Option ℚ :=
  match cs with
  | '-' :: r => (parseDecCore r).map (fun q => -q)
  | '+' :: r => parseDecCore r
  | r => parseDecCore r

/-! ### Tokens and `parse_entry` -/

/-- An element of `entered_list`: a `Decimal` or a raw string
(ada.py:282-290). -/
inductive Item where
  | num (q : ℚ)
  | sym (s : String)
deriving DecidableEq, Repr

def stkGet (l : List ℚ) (i : ℕ) : Except PyErr ℚ :=
  match l.get? i with
  | some v => .ok v
  | none => .error .indexError

def stkSet : List ℚ → ℕ → ℚ → Except PyErr (List ℚ)
  | [], _, _ => .error .indexError
  | _ :: l, 0, v => .ok (v :: l)
  | a :: l, i + 1, v => (stkSet l i v).map (a :: ·)

/-- Register substitution (ada.py:268-272) fused with the
classification loop (ada.py:283-290).  A run equal to a register
reference was replaced during the scan by `str(stack[i])`, which the
classification loop parses back into the same `Decimal`; `str`/`Decimal`
round-trips exactly, so the fused model emits `.num (stack[i])`
directly.  Isolated `',' ';' ':'` and empty runs are discarded;
parentheses and unparseable runs become symbols. -/
def toItem (stack : List ℚ) (run : List Char) : Except PyErr (Option Item) :=
  let s := String.mk run
  if s = "x:" then (stkGet stack 0).map (fun v => some (.num v))
  else if s = "y:" then (stkGet stack 1).map (fun v => some (.num v))
  else if s = "z:" then (stkGet stack 2).map (fun v => some (.num v))
  else if s = "t:" then (stkGet stack 3).map (fun v => some (.num v))
  else if s = "," || s = ";" || s = ":" then .ok none
  else if s = "" then .ok none
  else if s = "(" || s = ")" then .ok (some (.sym s))
  else
    match parseDec run with
    | some q => .ok (some (.num q))
    | none => .ok (some (.sym s))

def collectItems (stack : List ℚ) : List (List Char) → Except PyErr (List Item)
  | [] => .ok []
  | r :: rs => do
    let o ← toItem stack r
    let rest ← collectItems stack rs
    match o with
    | some it => .ok (it :: rest)
    | none => .ok rest

/-- Substring occurrence, modelling Python's `r in entered_value`. -/
def leadEq : List Char → List Char → Bool
  | [], _ => true
  | _ :: _, [] => false
  | a :: as_, b :: bs => a = b && leadEq as_ bs

def occursIn (p : List Char) : List Char → Bool
  | [] => p.isEmpty
  | c :: rest => leadEq p (c :: rest) || occursIn p rest

/-- The register-consumption loop (ada.py:278-280): slot `i` is reset to
`0` whenever the two-character reference text occurs *as a substring* of
the comma-stripped input line (the Python code stores the float `0.0`;
only its numeric value is modelled). -/
def applyResets (cleaned : List Char) (stack : List ℚ) : Except PyErr (List ℚ) := do
  let s0 ← if occursIn ['x', ':'] cleaned then stkSet stack 0 0 else .ok stack
  let s1 ← if occursIn ['y', ':'] cleaned then stkSet s0 1 0 else .ok s0
  let s2 ← if occursIn ['z', ':'] cleaned then stkSet s1 2 0 else .ok s1
  if occursIn ['t', ':'] cleaned then stkSet s2 3 0 else .ok s2

/-- `parse_entry` (ada.py:190-292): strip commas, scan, substitute
register references against the *original* stack, reset consumed
registers, classify each run. -/
def parse_entry (stack : List ℚ) (entered : List Char) :
    Except PyErr (List ℚ × List Item) := do
  let cleaned := entered.filter (fun c => c ≠ ',')
  let items ← collectItems stack (scan cleaned)
  let stack2 ← applyResets cleaned stack
  .ok (stack2, items)

/-! ### Operator registries

Key lists of the dictionaries built in the `__main__` block
(ada.py:3261-3395).  Pure display padding keys (`""`, `"===="`, runs of
spaces) can never be produced as tokens and are omitted.  The `"lastx"`
entry of `commands` is commented out in the source (ada.py:3356) and is
therefore absent here as well. -/

def op1keys : List String :=
  ["abs", "ceil", "!", "floor", "log", "n", "pi", "rand", "round", "sqrt",
   "cos", "sin", "tan", "acos", "asin", "atan", "deg", "rad",
   "decbin", "bindec", "dechex", "hexdec", "ic", "ci", "cf", "fc",
   "go", "og", "i", "kp", "pk", "km", "mk", "cm", "mc"]

def op2keys : List String := ["+", "-", "*", "x", "/", "%", "^"]

def commandsKeys : List String :=
  ["about", "import", "set", "version", "alpha", "hex", "list_alpha", "rgb",
   "help", "index", "basics", "advanced", "com", "math", "con", "short",
   "userhelp", "phrases", "M+", "M-", "MR", "MD", "ML",
   "clear", "drop", "dup", "list", "rolldown", "rollup", "split", "stats",
   "swap", "tape", "trim", "userop", "user"]

def constantsKeys : List String :=
  ["e", "avogadro", "golden_ratio", "gram", "inches_hg", "light", "mmhg",
   "parsec"]

def shortcutsKeys : List String := ["c", "d", "h", "n", "q", "r", "rd", "ru", "s"]

def regNames : List String := ["x:", "y:", "z:", "t:"]

/-- Python `int()` on a Decimal: truncation toward zero. -/
def qtrunc (q : ℚ) : ℤ := if 0 ≤ q then ⌊q⌋ else -⌊-q⌋

/-- Python `round(y, n)` on a Decimal: round-half-even at `n` decimals. -/
def roundHalfEven (y : ℚ) (n : ℕ) : ℚ :=
  let m := y * 10 ^ n
  let f : ℤ := ⌊m⌋
  let r := m - f
  let k : ℤ :=
    if r < 1 / 2 then f
    else if 1 / 2 < r then f + 1
    else if f % 2 = 0 then f else f + 1
  (k : ℚ) / 10 ^ n

/-! ### Stack operations (exact-arithmetic subset)

Each function mirrors the body of the same-named Python function; reads
of `stack[i]` beyond the end are `IndexError`. -/

/-- `clear` (ada.py:1701): the stack becomes four zeros. -/
def clear (_stack : List ℚ) : List ℚ := [0, 0, 0, 0]

/-- `drop` (ada.py:1718): `stack[1:]` — total, even on `[]`. -/
def drop (stack : List ℚ) : List ℚ := stack.drop 1

/-- `dup` (ada.py:1733-1734). -/
def dup (stack : List ℚ) : Except PyErr (List ℚ) := do
  let x ← stkGet stack 0
  .ok (x :: stack)

/-- `negate` (ada.py:1186-1187); `Decimal(str(-x))` round-trips exactly. -/
def negate (stack : List ℚ) : Except PyErr (List ℚ) := do
  let x ← stkGet stack 0
  stkSet stack 0 (-x)

/-- `absolute` (ada.py:1253-1254). -/
def absolute (stack : List ℚ) : Except PyErr (List ℚ) := do
  let x ← stkGet stack 0
  stkSet stack 0 |x|

/-- `ceil` (ada.py:1146-1147). -/
def ceil (stack : List ℚ) : Except PyErr (List ℚ) := do
  let x ← stkGet stack 0
  stkSet stack 0 (⌈x⌉ : ℤ)

/-- `floor` (ada.py:1157-1158). -/
def floor (stack : List ℚ) : Except PyErr (List ℚ) := do
  let x ← stkGet stack 0
  stkSet stack 0 (⌊x⌋ : ℤ)

/-- `log` (ada.py:1128-1137): values `≤ 0` are reported and the stack is
returned unchanged; the positive branch produces a float-rounded
`log10` that is not modelled. -/
def log (stack : List ℚ) : Except PyErr (List ℚ) := do
  let x ← stkGet stack 0
  if x ≤ 0 then .ok stack else .error .notModelled

/-- `sqrt` (ada.py:1899-1909): negative arguments are reported and the
stack returned unchanged; the non-negative branch produces a
float-rounded square root that is not modelled. -/
def sqrt (stack : List ℚ) : Except PyErr (List ℚ) := do
  let x ← stkGet stack 0
  if 0 ≤ x then .error .notModelled else .ok stack

/-- `factorial` (ada.py:1168-1177): negative arguments are reported and
the stack returned unchanged; otherwise `int()` truncates and the exact
factorial replaces `x`. -/
def factorial (stack : List ℚ) : Except PyErr (List ℚ) := do
  let x ← stkGet stack 0
  if x < 0 then .ok stack
  else stkSet stack 0 (Nat.factorial (qtrunc x).toNat : ℚ)

/-- `pi_value` (ada.py:1235): pushes `Decimal(str(math.pi))`. -/
def pi_value (stack : List ℚ) : List ℚ :=
  (3.141592653589793 : ℚ) :: stack

/-- `round_y` (ada.py:1867-1877). -/
def round_y (stack : List ℚ) : Except PyErr (List ℚ) := do
  let x ← stkGet stack 0
  let y ← stkGet stack 1
  if qtrunc x < 0 then .ok stack
  else .ok (roundHalfEven y (qtrunc x).toNat :: stack.drop 2)

/-- `swap` (ada.py:2013): reads both positions, then assigns. -/
def swap (stack : List ℚ) : Except PyErr (List ℚ) := do
  let x ← stkGet stack 0
  let y ← stkGet stack 1
  let s1 ← stkSet stack 0 y
  stkSet s1 1 x

/-- `roll_up` (ada.py:1842-1843): `x y z t → t x y z`. -/
def roll_up (stack : List ℚ) : Except PyErr (List ℚ) := do
  let x ← stkGet stack 0
  let y ← stkGet stack 1
  let z ← stkGet stack 2
  let t ← stkGet stack 3
  let s0 ← stkSet stack 0 t
  let s1 ← stkSet s0 1 x
  let s2 ← stkSet s1 2 y
  stkSet s2 3 z

/-- `roll_down` (ada.py:1853-1854): `x y z t → y z t x`. -/
def roll_down (stack : List ℚ) : Except PyErr (List ℚ) := do
  let x ← stkGet stack 0
  let y ← stkGet stack 1
  let z ← stkGet stack 2
  let t ← stkGet stack 3
  let s0 ← stkSet stack 0 y
  let s1 ← stkSet s0 1 z
  let s2 ← stkSet s1 2 t
  stkSet s2 3 x

/-- `trim_stack` (ada.py:2026): `stack[0:4]` — total. -/
def trim_stack (stack : List ℚ) : List ℚ := stack.take 4

/-- `split_number` (ada.py:1886-1890). -/
def split_number (stack : List ℚ) : Except PyErr (List ℚ) := do
  let n ← stkGet stack 0
  .ok ((n - qtrunc n) :: (qtrunc n : ℚ) :: stack)

/-- `list_stack` (ada.py:1757-1759): displays the stack, padding it to at
least four elements as a side effect. -/
def list_stack (stack : List ℚ) : List ℚ :=
  stack ++ List.replicate (4 - stack.length) 0

/-! ### Binary operators (ada.py:1282-1377) -/

/-- `add` (ada.py:1287-1290). -/
def add (stack : List ℚ) : Except PyErr (List ℚ) := do
  let x ← stkGet stack 0
  let y ← stkGet stack 1
  .ok ((x + y) :: stack.drop 2)

/-- `sub` (ada.py:1300-1303): pushes `y - x`. -/
def sub (stack : List ℚ) : Except PyErr (List ℚ) := do
  let x ← stkGet stack 0
  let y ← stkGet stack 1
  .ok ((y - x) :: stack.drop 2)

/-- `mul` (ada.py:1313-1316). -/
def mul (stack : List ℚ) : Except PyErr (List ℚ) := do
  let x ← stkGet stack 0
  let y ← stkGet stack 1
  .ok ((y * x) :: stack.drop 2)

/-- `truediv` (ada.py:1328-1331); the `x = 0` case is intercepted by
`math_op2` before this function is reached, so `y / x` is exact here up
to Decimal context rounding (not exercised by any claim). -/
def truediv (stack : List ℚ) : Except PyErr (List ℚ) := do
  let x ← stkGet stack 0
  let y ← stkGet stack 1
  .ok ((y / x) :: stack.drop 2)

/-- `mod` (ada.py:1347-1350): Decimal `%` is the remainder of truncated
division; with `x = 0` it raises `InvalidOperation`, which nothing in
the evaluator catches. -/
def mod (stack : List ℚ) : Except PyErr (List ℚ) := do
  let x ← stkGet stack 0
  let y ← stkGet stack 1
  if x = 0 then .error .invalidOperation
  else .ok ((y - x * qtrunc (y / x)) :: stack.drop 2)

/-- The inputs on which Decimal `y ** x` raises (`InvalidOperation` for a
negative base with non-integral exponent or `0 ** 0`, `DivisionByZero`
for `0 ** negative`), all caught by `power`'s bare `except`
(ada.py:1371).  Overflow of astronomically large results is not
modelled. -/
def powRaises (y x : ℚ) : Bool :=
  (decide (y < 0) && decide (x.den ≠ 1)) || (decide (y = 0) && decide (x ≤ 0))

/-- Exact value of Decimal `y ** x` for an integral exponent within the
28-digit context (the only case any claim evaluates). -/
def powVal (y x : ℚ) : ℚ := y ^ x.num

/-- `power` (ada.py:1366-1377): both operands are popped *before* the
`try`; on a domain error the handler reports and returns the stack with
the operands already removed.  Non-integral exponents on a positive base
produce a context-rounded result that is not modelled. -/
def power (stack : List ℚ) : Except PyErr (List ℚ) := do
  let x ← stkGet stack 0
  let y ← stkGet stack 1
  if powRaises y x then .ok (stack.drop 2)
  else if x.den = 1 then .ok (powVal y x :: stack.drop 2)
  else .error .notModelled

/-- `math_op1` (ada.py:1380-1389): dispatch over `op1`.  The
`try/except`-retry wrapper has no effect on the modelled operations
(their only exceptions re-raise identically on retry).  Operations whose
results pass through binary floating point are `.notModelled`. -/
def math_op1 (s : String) (stack : List ℚ) : Except PyErr (List ℚ) :=
  if s = "sqrt" then sqrt stack
  else if s = "log" then log stack
  else if s = "!" then factorial stack
  else if s = "n" then negate stack
  else if s = "abs" then absolute stack
  else if s = "ceil" then ceil stack
  else if s = "floor" then floor stack
  else if s = "pi" then .ok (pi_value stack)
  else if s = "round" then round_y stack
  else .error .notModelled

/-- `math_op2` (ada.py:1394-1406): only `'/'` with `stack[0] == 0` is
guarded (reported, stack unchanged); every other operator dispatches
directly. -/
def math_op2 (s : String) (stack : List ℚ) : Except PyErr (List ℚ) :=
  if s = "/" then do
    let x ← stkGet stack 0
    if x = 0 then .ok stack else truediv stack
  else if s = "+" then add stack
  else if s = "-" then sub stack
  else if s = "*" || s = "x" then mul stack
  else if s = "%" then mod stack
  else if s = "^" then power stack
  else .error .notModelled

/-! ### Memory registers (ada.py:2351-2630)

`mem` is a Python dict with Decimal keys and values; equality of keys is
numeric.  Modelled as an association list with dict-style update
(replace in place) and `pop` (KeyError when absent). -/

abbrev Mem : Type := List (ℚ × ℚ)

def memFind (m : Mem) (k : ℚ) : Option ℚ :=
  match m with
  | [] => none
  | p :: rest => if p.1 = k then some p.2 else memFind rest k

def memHasKey (m : Mem) (k : ℚ) : Bool := (memFind m k).isSome

def memUpdate (m : Mem) (k v : ℚ) : Mem :=
  match m with
  | [] => [(k, v)]
  | p :: rest => if p.1 = k then (k, v) :: rest else p :: memUpdate rest k v

/-- `dict.pop(k)`: `none` models the `KeyError`. -/
def memPop (m : Mem) (k : ℚ) : Option Mem :=
  match m with
  | [] => none
  | p :: rest =>
    if p.1 = k then some rest
    else (memPop rest k).map (p :: ·)

/-- `mem_add` (ada.py:2351-2399, command `M+`): the register id `stack[1]`
must be a positive integer, otherwise the error is reported and stack
and registers are returned unchanged; on success both operands are
popped and the register is created or incremented. -/
def mem_add (stack : List ℚ) (mem : Mem) : Except PyErr (List ℚ × Mem) := do
  let y ← stkGet stack 1
  if y.den = 1 ∧ 0 < y then do
    let x ← stkGet stack 0
    match memFind mem y with
    | some cur => .ok (stack.drop 2, memUpdate mem y (x + cur))
    | none => .ok (stack.drop 2, memUpdate mem y x)
  else .ok (stack, mem)

/-- `mem_sub` (ada.py:2402-2451, command `M-`): the integrality test on
`stack[1]` lacks the `> 0` half, so zero and negative integer ids are
accepted and create/update such registers; the rejection branch calls
the non-existent method `window.addst`, an uncaught `AttributeError`. -/
def mem_sub (stack : List ℚ) (mem : Mem) : Except PyErr (List ℚ × Mem) := do
  let y ← stkGet stack 1
  if y.den = 1 then do
    let x ← stkGet stack 0
    match memFind mem y with
    | some cur => .ok (stack.drop 2, memUpdate mem y (cur - x))
    | none => .ok (stack.drop 2, memUpdate mem y x)
  else .error .attributeError

/-- The range-deletion `for` loop of `mem_del` (ada.py:2588-2628): delete
ascending keys, stopping (and returning early) at the first `KeyError`;
`count` is the number of keys left to try.  Returns the surviving
registers, the ids deleted, and whether a missing key was hit. -/
def delLoop (m : Mem) (i : ℕ) (count : ℕ) (acc : List ℕ) :
    Mem × List ℕ × Bool :=
  match count with
  | 0 => (m, acc, false)
  | c + 1 =>
    match memPop m (i : ℚ) with
    | some m2 => delLoop m2 (i + 1) c (acc ++ [i])
    | none => (m, acc, true)

/-- `mem_del` (ada.py:2522-2630, command `MD`): register bounds are
`int(abs(stack[0]))` and `int(abs(stack[1]))`, swapped when the first
exceeds the second and the second is nonzero; a zero second bound selects
single-register deletion.  `confirm` models the interactive (Y/N)
answer; the stack is never modified. -/
def mem_del (confirm : Bool) (stack : List ℚ) (mem : Mem) :
    Except PyErr (List ℚ × Mem × List ℕ) := do
  let x ← stkGet stack 0
  let y ← stkGet stack 1
  let r1 := (qtrunc |x|).toNat
  let r2 := (qtrunc |y|).toNat
  let (a, b) := if r1 > r2 ∧ r2 ≠ 0 then (r2, r1) else (r1, r2)
  if b = 0 then
    if confirm then
      match memPop mem (a : ℚ) with
      | some m2 => .ok (stack, m2, [a])
      | none => .ok (stack, mem, [])
    else .ok (stack, mem, [])
  else
    if confirm then
      let r := delLoop mem a (b + 1 - a) []
      .ok (stack, r.1, r.2.1)
    else .ok (stack, mem, [])

/-- Modelled from the spec's words for `delete_range(lo, hi)` (spec
§4.3): normalize the bound order, then delete the longest prefix of
`[lo..hi]` whose keys all exist, reporting exactly those keys. -/
def delRangeSpec (lo hi : ℕ) (m : Mem) : Mem × List ℕ :=
  let a := min lo hi
  let b := max lo hi
  let ks := (List.range' a (b + 1 - a)).takeWhile (fun (k : ℕ) => memHasKey m (k : ℚ))
  (ks.foldl (fun (mm : Mem) (k : ℕ) => (memPop mm (k : ℚ)).getD mm) m, ks)

/-! ### The evaluator (`initial_processing` / `process_item`,
ada.py:295-477) -/

structure EvalState where
  stack : List ℚ
  lastx : List ℚ
  mem : Mem
deriving DecidableEq, Repr

def constVal (s : String) : ℚ :=
  if s = "e" then 2.7182818284590452353602874714
  else if s = "avogadro" then 6.0221409e23
  else if s = "golden_ratio" then 1.61803398874989484820
  else if s = "gram" then 0.03527396195
  else if s = "inches_hg" then 25.399999705
  else if s = "light" then 299792458
  else if s = "mmhg" then 0.53524017145
  else if s = "parsec" then 19173510995000
  else 0

/-- The `commands`/`shortcuts` operations executed by the generic call at
ada.py:465 (`stack = operation(stack, item, window)`).  Display-only
operations (`help`, `index`, ...) leave the state unchanged; operations
with effects outside the exact-arithmetic subset (`import`, `hex`,
`rgb`, `alpha`, ...) are `.notModelled`; the shortcut `'q'` resolves to
the empty string, so calling it raises `TypeError` (reachable only
inside a parenthesized group). -/
def commandApply (s : String) (stack : List ℚ) : Except PyErr (List ℚ) :=
  if s = "clear" || s = "c" then .ok (clear stack)
  else if s = "drop" || s = "d" then .ok (drop stack)
  else if s = "dup" then dup stack
  else if s = "swap" || s = "s" then swap stack
  else if s = "rollup" || s = "ru" then roll_up stack
  else if s = "rolldown" || s = "rd" then roll_down stack
  else if s = "trim" then .ok (trim_stack stack)
  else if s = "split" then split_number stack
  else if s = "list" then .ok (list_stack stack)
  else if s = "n" then negate stack
  else if s = "r" then round_y stack
  else if s = "h" || s = "help" || s = "index" || s = "basics" ||
          s = "advanced" || s = "com" || s = "math" || s = "con" ||
          s = "short" || s = "userhelp" || s = "phrases" || s = "userop" ||
          s = "about" || s = "version" then .ok stack
  else if s = "q" then .error .typeError
  else .error .notModelled

/-- `process_item` (ada.py:396-477).  Branches in source order:
parentheses are no-ops; a Decimal is pushed; `op1` then `op2` dispatch;
then the combined `commands`/`shortcuts`/`constants`/register-name
membership test with its inner dispatch (`'set'` returns a
wrongly-shaped tuple, `TypeError` in the caller; a bare register name
leaves `operation` unassigned, `UnboundLocalError`); anything else is
reported as unrecognized and ignored. -/
def process_item (st : EvalState) (item : Item) : Except PyErr EvalState :=
  match item with
  | .num q => .ok { st with stack := q :: st.stack }
  | .sym s =>
    if s = "(" || s = ")" then .ok st
    else if s ∈ op1keys then
      (math_op1 s st.stack).map (fun l => { st with stack := l })
    else if s ∈ op2keys then
      (math_op2 s st.stack).map (fun l => { st with stack := l })
    else if s ∈ commandsKeys ∨ s ∈ shortcutsKeys ∨ s ∈ constantsKeys ∨
            s ∈ regNames then
      if s = "M+" then
        (mem_add st.stack st.mem).map
          (fun p => { st with stack := p.1, mem := p.2 })
      else if s = "M-" then
        (mem_sub st.stack st.mem).map
          (fun p => { st with stack := p.1, mem := p.2 })
      else if s = "MD" || s = "MR" || s = "ML" then .error .notModelled
      else if s = "set" then .error .typeError
      else if s = "user" || s = "tape" || s = "stats" then .error .notModelled
      else if s ∈ constantsKeys then .ok { st with stack := constVal s :: st.stack }
      else if s ∈ regNames then .error .unboundLocal
      else (commandApply s st.stack).map (fun l => { st with stack := l })
    else .ok st

/-- Split a token list at the first `')'` (the group `while` loop's exit
test, ada.py:378); `none` when no `')'` remains, in which case the
Python loop never terminates. -/
def splitAtClose : List Item → Option (List Item × List Item)
  | [] => none
  | it :: rest =>
    if it = .sym ")" then some ([], rest)
    else (splitAtClose rest).map (fun p => (it :: p.1, p.2))

/-- The group inner loop body: interior items are processed one after
another against the same live state. -/
def processSeq : EvalState → List Item → Except PyErr EvalState
  | st, [] => .ok st
  | st, it :: its => do
    let s2 ← process_item st it
    processSeq s2 its

def isShortcutItem : Item → Bool
  | .sym s => s ∈ shortcutsKeys
  | .num _ => false

/-- The shortcut branch of `initial_processing` (ada.py:361-363);
`'h'` and `'q'` are intercepted before this call. -/
def shortcutApply (s : String) (stack : List ℚ) : Except PyErr (List ℚ) :=
  if s = "c" then .ok (clear stack)
  else if s = "d" then .ok (drop stack)
  else if s = "n" then negate stack
  else if s = "r" then round_y stack
  else if s = "rd" then roll_down stack
  else if s = "ru" then roll_up stack
  else if s = "s" then swap stack
  else .error .typeError

/-- The main loop of `initial_processing` (ada.py:320-393).  Per
top-level item: the lastx history is rolled (`lastx_list[-1]` then
`stack[0]`, both `IndexError` when empty); shortcuts run with their
`h`/`q` special cases; `'('` enters the group loop, which processes
interior items without further history updates and skips the closing
`')'`; every other item goes through `process_item`.  Fuel-indexed:
every iteration consumes at least one item, so `length + 1` fuel (see
`initial_processing`) never runs out. -/
def evalLoop : ℕ → ℕ → List Item → EvalState → Except PyErr EvalState
  | 0, _, _, _ => .error .hang
  | _ + 1, _, [], st => .ok st
  | fuel + 1, origLen, item :: rest, st =>
    match st.lastx.getLast? with
    | none => .error .indexError
    | some ll =>
      match st.stack.head? with
      | none => .error .indexError
      | some top =>
        let st1 := { st with lastx := [ll, top] }
        if isShortcutItem item then
          if item = .sym "h" ∧ origLen = 1 then .ok st1
          else if item = .sym "q" then .ok st1
          else if item = .sym "h" then
            match rest with
            | [] => .error .indexError
            | nxt :: rest2 =>
              if nxt ≠ .sym "q" then evalLoop fuel origLen rest2 st1
              else evalLoop fuel origLen rest st1
          else
            match item with
            | .sym s =>
              match shortcutApply s st1.stack with
              | .error e => .error e
              | .ok l => evalLoop fuel origLen rest { st1 with stack := l }
            | .num _ => .error .typeError
        else if item = .sym "set" then evalLoop fuel origLen rest st1
        else if item ≠ .sym "(" then
          match process_item st1 item with
          | .error e => .error e
          | .ok st2 => evalLoop fuel origLen rest st2
        else
          match splitAtClose rest with
          | none => .error .hang
          | some (inside, after) =>
            match processSeq st1 inside with
            | .error e => .error e
            | .ok st2 => evalLoop fuel origLen after st2

/-- `initial_processing` (ada.py:295-393) on one line's token list. -/
def initial_processing (items : List Item) (st : EvalState) :
    Except PyErr EvalState :=
  evalLoop (items.length + 1) items.length items st

/-- Final-stack projection of an evaluation outcome. -/
def stackOf : Except PyErr EvalState → Option (List ℚ)
  | .ok st => some st.stack
  | .error _ => none

/-! ### Helper lemmas -/

@[simp] theorem ok_bind {α β : Type} (a : α) (f : α → Except PyErr β) :
    (Except.ok a >>= f) = f a := rfl

@[simp] theorem err_bind {α β : Type} (e : PyErr) (f : α → Except PyErr β) :
    ((Except.error e : Except PyErr α) >>= f) = .error e := rfl

@[simp] theorem ok_map {α β : Type} (a : α) (f : α → β) :
    Except.map f (Except.ok a : Except PyErr α) = .ok (f a) := rfl

@[simp] theorem err_map {α β : Type} (e : PyErr) (f : α → β) :
    Except.map f (Except.error e : Except PyErr α) = .error e := rfl

@[simp] theorem stkGet_cons_zero (a : ℚ) (l : List ℚ) :
    stkGet (a :: l) 0 = .ok a := rfl

@[simp] theorem stkGet_cons_succ (a : ℚ) (l : List ℚ) (i : ℕ) :
    stkGet (a :: l) (i + 1) = stkGet l i := rfl

@[simp] theorem stkGet_nil (i : ℕ) :
    stkGet [] i = .error .indexError := by cases i <;> rfl

@[simp] theorem stkSet_cons_zero (a v : ℚ) (l : List ℚ) :
    stkSet (a :: l) 0 v = .ok (v :: l) := rfl

@[simp] theorem stkSet_cons_succ (a v : ℚ) (l : List ℚ) (i : ℕ) :
    stkSet (a :: l) (i + 1) v = (stkSet l i v).map (a :: ·) := rfl

@[simp] theorem stkSet_nil (i : ℕ) (v : ℚ) :
    stkSet [] i v = .error .indexError := rfl

theorem dropWhileLenLe (p : Char → Bool) (l : List Char) :
    (l.dropWhile p).length ≤ l.length := by
  induction l with
  | nil => simp
  | cons a l ih =>
    rw [List.dropWhile_cons]
    split
    · exact Nat.le_succ_of_le ih
    · exact Nat.le_refl _

theorem identRunAux_snd_le (c : Char) (rest : List Char) :
    (identRunAux c rest).2.length ≤ rest.length := by
  induction rest generalizing c with
  | nil => simp [identRunAux]
  | cons d rest ih =>
    simp only [identRunAux]
    split
    · exact le_trans (ih d) (Nat.le_succ _)
    · split <;> simp

/-- The scanner's fuel is irrelevant as long as it exceeds the input
length: every iteration consumes at least one character. -/
theorem scanF_fuel_eq (f g : ℕ) (cs : List Char) (hf : cs.length < f)
    (hg : cs.length < g) : scanF f cs = scanF g cs := by
  induction f generalizing g cs with
  | zero => omega
  | succ f ihf =>
    match g, cs with
    | g + 1, [] => rfl
    | g + 1, c :: rest =>
      simp only [scanF]
      have hr : rest.length < f := by simpa using hf
      have hr' : rest.length < g := by simpa using hg
      split
      · rw [ihf g rest hr hr']
      · split
        · rw [ihf g (rest.dropWhile isNumChar)
            (lt_of_le_of_lt (dropWhileLenLe _ _) hr)
            (lt_of_le_of_lt (dropWhileLenLe _ _) hr')]
        · split
          · rw [ihf g (identRunAux c rest).2
              (lt_of_le_of_lt (identRunAux_snd_le c rest) hr)
              (lt_of_le_of_lt (identRunAux_snd_le c rest) hr')]
          · rw [ihf g rest hr hr']

theorem scan_cons_num (c : Char) (cs : List Char) (h : isNumChar c = true) :
    scan (c :: cs) =
      (c :: cs.takeWhile isNumChar) :: scan (cs.dropWhile isNumChar) := by
  have h1 : c ≠ '(' := by
    intro e
    subst e
    simp [isNumChar, isDigitC] at h
  have h2 : c ≠ ')' := by
    intro e
    subst e
    simp [isNumChar, isDigitC] at h
  rw [scan]
  simp only [scanF, List.length_cons]
  rw [if_neg (by simp [h1, h2]), if_pos h]
  rw [scan]
  exact congrArg _ (scanF_fuel_eq _ _ _
    (Nat.lt_succ_of_le (dropWhileLenLe _ _))
    (Nat.lt_succ_self _))

/-! ### Claim theorems -/

/-- C1.  Tokenizing the line `4 7 3d s sqrt` yields exactly
`[Number 4, Number 7, Number 3, Symbol d, Symbol s, Symbol sqrt]`, and
in general a number run (a maximal run of digit/`.`/`-` characters)
ends at the first character outside that class, so a digit immediately
followed by a letter splits into a Number token and a following token. -/
theorem C1_tokenizer_digit_letter_split :
    parse_entry [0, 0, 0, 0] ("4 7 3d s sqrt").data =
      .ok ([0, 0, 0, 0],
        [.num 4, .num 7, .num 3, .sym "d", .sym "s", .sym "sqrt"]) ∧
    ∀ c₁ c₂ cs, isNumChar c₁ = true → isNumChar c₂ = false →
      scan (c₁ :: c₂ :: cs) = [c₁] :: scan (c₂ :: cs) := by
  constructor
  · rfl
  · intro c₁ c₂ cs h1 h2
    rw [scan_cons_num c₁ (c₂ :: cs) h1]
    simp [List.takeWhile_cons, List.dropWhile_cons, h2]

/-- Witness for C1's general conjunct at the concrete split `3d`. -/
theorem C1_tokenizer_digit_letter_split_w :
    scan ['3', 'd'] = ['3'] :: scan ['d'] :=
  C1_tokenizer_digit_letter_split.2 '3' 'd' [] (by decide) (by decide)

/-- C2.  The binary operator `-` pops `x` (top) and `y` (second) and
pushes `y - x`: for every state whose stack starts `x :: y :: rest`,
evaluating the single token `-` leaves `y - x :: rest`, so with
`x = 3, y = 4` the top becomes `1`. -/
theorem C2_sub_is_y_minus_x :
    (∀ (x y : ℚ) (rest hist : List ℚ) (h0 : ℚ) (m : Mem),
      stackOf (initial_processing [.sym "-"] ⟨x :: y :: rest, hist ++ [h0], m⟩)
        = some ((y - x) :: rest)) ∧
    ∀ (rest hist : List ℚ) (h0 : ℚ) (m : Mem),
      stackOf (initial_processing [.sym "-"] ⟨3 :: 4 :: rest, hist ++ [h0], m⟩)
        = some (1 :: rest) := by
  have main : ∀ (x y : ℚ) (rest hist : List ℚ) (h0 : ℚ) (m : Mem),
      stackOf (initial_processing [.sym "-"] ⟨x :: y :: rest, hist ++ [h0], m⟩)
        = some ((y - x) :: rest) := by
    intro x y rest hist h0 m
    simp [initial_processing, evalLoop, isShortcutItem, shortcutsKeys,
      process_item, op1keys, op2keys, math_op2, sub, stackOf]
  refine ⟨main, ?_⟩
  intro rest hist h0 m
  have h43 : (4 : ℚ) - 3 = 1 := by norm_num
  have := main 3 4 rest hist h0 m
  rwa [h43] at this

/-- C10.  `rollup` and `rolldown` permute only stack positions 0-3:
for any stack `x :: y :: z :: t :: rest` the four registers are
cyclically rotated and every element of `rest` (positions ≥ 4) is
unchanged, both at the level of the stack operations and when the
tokens are evaluated. -/
theorem C10_roll_frame :
    ∀ (x y z t : ℚ) (rest hist : List ℚ) (h0 : ℚ) (m : Mem),
      roll_up (x :: y :: z :: t :: rest) = .ok (t :: x :: y :: z :: rest) ∧
      roll_down (x :: y :: z :: t :: rest) = .ok (y :: z :: t :: x :: rest) ∧
      stackOf (initial_processing [.sym "rollup"]
          ⟨x :: y :: z :: t :: rest, hist ++ [h0], m⟩)
        = some (t :: x :: y :: z :: rest) ∧
      stackOf (initial_processing [.sym "rolldown"]
          ⟨x :: y :: z :: t :: rest, hist ++ [h0], m⟩)
        = some (y :: z :: t :: x :: rest) := by
  intro x y z t rest hist h0 m
  refine ⟨?_, ?_, ?_, ?_⟩ <;>
    simp [roll_up, roll_down, stkGet, stkSet, initial_processing, evalLoop,
      isShortcutItem, shortcutsKeys, process_item, op1keys, op2keys,
      commandsKeys, constantsKeys, regNames, commandApply, stackOf]

/-- Token list of the line `(145 5 +)(111 20 +) *`. -/
def groupedLine : List Item :=
  [.sym "(", .num 145, .num 5, .sym "+", .sym ")",
   .sym "(", .num 111, .num 20, .sym "+", .sym ")", .sym "*"]

/-- Token list of the line `145 5 + 111 20 + *`. -/
def flatLine : List Item :=
  [.num 145, .num 5, .sym "+", .num 111, .num 20, .sym "+", .sym "*"]

/-- C3.  Parenthesized groups are flattening-only: evaluating
`(145 5 +)(111 20 +) *` produces the same final stack as evaluating
`145 5 + 111 20 + *` from every starting state (identically erroring
states included); the group delimiters themselves have no effect in
`process_item`; and both lines tokenize as expected without touching
the stack. -/
theorem C3_groups_flatten :
    (∀ (stack hist : List ℚ) (h0 : ℚ) (m : Mem),
      (initial_processing groupedLine ⟨stack, hist ++ [h0], m⟩).map
          EvalState.stack
        = (initial_processing flatLine ⟨stack, hist ++ [h0], m⟩).map
          EvalState.stack) ∧
    (∀ st : EvalState, process_item st (.sym "(") = .ok st ∧
      process_item st (.sym ")") = .ok st) ∧
    (∀ stack : List ℚ,
      parse_entry stack ("(145 5 +)(111 20 +) *").data =
        .ok (stack, groupedLine)) ∧
    ∀ stack : List ℚ,
      parse_entry stack ("145 5 + 111 20 + *").data = .ok (stack, flatLine) := by
  refine ⟨?_, fun st => ⟨rfl, rfl⟩, fun stack => rfl, fun stack => rfl⟩
  intro stack hist h0 m
  cases stack with
  | nil =>
    simp [initial_processing, groupedLine, flatLine, evalLoop]
  | cons a rest =>
    simp [initial_processing, groupedLine, flatLine, evalLoop, isShortcutItem,
      shortcutsKeys, process_item, op1keys, op2keys, math_op2, add, mul,
      splitAtClose, processSeq]

/-- C4 counterexample.  Evaluation is not total: `d d d d s` (four drops
followed by swap) aborts with an uncaught `IndexError`, and `5 0 %`
aborts with an uncaught `InvalidOperation`, instead of reporting an
error and continuing. -/
theorem C4_totality_counterexample :
    initial_processing [.sym "d", .sym "d", .sym "d", .sym "d", .sym "s"]
        ⟨[0, 0, 0, 0], [0], []⟩ = .error .indexError ∧
    initial_processing [.num 5, .num 0, .sym "%"] ⟨[0, 0, 0, 0], [0], []⟩
        = .error .invalidOperation := ⟨rfl, rfl⟩

/-- C4 as amended.  An operator that reads more stack elements than
exist raises an uncaught `IndexError` that aborts the evaluation (the
stack is zero-padded only between input lines, by the display layer),
and `%` with `x = 0` raises an uncaught `InvalidOperation`; only `/`
checks `x = 0` and reports a division error without aborting and
without touching the stack. -/
theorem C4_underflow_and_mod_zero_abort :
    (∀ (y : ℚ) (rest hist : List ℚ) (h0 : ℚ) (m : Mem),
      initial_processing [.sym "%"] ⟨0 :: y :: rest, hist ++ [h0], m⟩
        = .error .invalidOperation) ∧
    (∀ (v : ℚ) (hist : List ℚ) (h0 : ℚ) (m : Mem),
      initial_processing [.sym "s"] ⟨[v], hist ++ [h0], m⟩
        = .error .indexError) ∧
    (∀ (hist : List ℚ) (h0 : ℚ) (m : Mem),
      initial_processing [.sym "s"] ⟨[], hist ++ [h0], m⟩
        = .error .indexError) ∧
    ∀ (rest hist : List ℚ) (h0 : ℚ) (m : Mem),
      stackOf (initial_processing [.sym "/"] ⟨0 :: rest, hist ++ [h0], m⟩)
        = some (0 :: rest) := by
  refine ⟨?_, ?_, ?_, ?_⟩ <;> intros <;>
    simp [initial_processing, evalLoop, isShortcutItem, shortcutsKeys,
      shortcutApply, process_item, op1keys, op2keys, math_op2, mod, swap,
      stackOf]

/-- C5 counterexample.  A domain error in `^` is not a no-op: with
stack `[0, 0, 5, 7]` (so `0 ** 0`, which Decimal rejects as undefined),
evaluating `^` reports the error but leaves the stack as `[5, 7]` —
both operands were popped before the failing computation and are not
restored. -/
theorem C5_power_mutates_counterexample :
    stackOf (initial_processing [.sym "^"]
        ⟨[0, 0, 5, 7], [0], []⟩) = some [5, 7] ∧
    ([5, 7] : List ℚ) ≠ [0, 0, 5, 7] := ⟨rfl, by decide⟩

/-- C5 as amended.  Domain errors in `sqrt` (negative argument), `log`
(argument ≤ 0), `!` (negative argument) and `/` (x = 0) are reported
and leave the stack exactly as it was, but a domain error in `^` (a
power undefined over the reals) pops both operands before the `try`
and leaves the stack two elements shorter. -/
theorem C5_domain_error_stack_effects :
    (∀ (x : ℚ) (rest hist : List ℚ) (h0 : ℚ) (m : Mem), x < 0 →
      stackOf (initial_processing [.sym "sqrt"] ⟨x :: rest, hist ++ [h0], m⟩)
        = some (x :: rest)) ∧
    (∀ (x : ℚ) (rest hist : List ℚ) (h0 : ℚ) (m : Mem), x ≤ 0 →
      stackOf (initial_processing [.sym "log"] ⟨x :: rest, hist ++ [h0], m⟩)
        = some (x :: rest)) ∧
    (∀ (x : ℚ) (rest hist : List ℚ) (h0 : ℚ) (m : Mem), x < 0 →
      stackOf (initial_processing [.sym "!"] ⟨x :: rest, hist ++ [h0], m⟩)
        = some (x :: rest)) ∧
    (∀ (rest hist : List ℚ) (h0 : ℚ) (m : Mem),
      stackOf (initial_processing [.sym "/"] ⟨0 :: rest, hist ++ [h0], m⟩)
        = some (0 :: rest)) ∧
    ∀ (x y : ℚ) (rest hist : List ℚ) (h0 : ℚ) (m : Mem),
      powRaises y x = true →
      stackOf (initial_processing [.sym "^"] ⟨x :: y :: rest, hist ++ [h0], m⟩)
        = some rest := by
  refine ⟨?_, ?_, ?_, ?_, ?_⟩
  · intro x rest hist h0 m hx
    simp [initial_processing, evalLoop, isShortcutItem, shortcutsKeys,
      process_item, op1keys, op2keys, math_op1, sqrt, stackOf,
      not_le.mpr hx]
  · intro x rest hist h0 m hx
    simp [initial_processing, evalLoop, isShortcutItem, shortcutsKeys,
      process_item, op1keys, op2keys, math_op1, log, stackOf, hx]
  · intro x rest hist h0 m hx
    simp [initial_processing, evalLoop, isShortcutItem, shortcutsKeys,
      process_item, op1keys, op2keys, math_op1, factorial, stackOf,
      not_le.mpr hx, hx]
  · intro rest hist h0 m
    simp [initial_processing, evalLoop, isShortcutItem, shortcutsKeys,
      process_item, op1keys, op2keys, math_op2, stackOf]
  · intro x y rest hist h0 m hp
    simp [initial_processing, evalLoop, isShortcutItem, shortcutsKeys,
      process_item, op1keys, op2keys, math_op2, power, stackOf, hp]

/-- Witness for C5's amended theorem: each hypothesis discharged at a
concrete input. -/
theorem C5_domain_error_stack_effects_w :
    stackOf (initial_processing [.sym "sqrt"] ⟨[-1, 0], [] ++ [0], []⟩)
        = some [-1, 0] ∧
    stackOf (initial_processing [.sym "log"] ⟨[0, 7], [] ++ [0], []⟩)
        = some [0, 7] ∧
    stackOf (initial_processing [.sym "!"] ⟨[-2, 0], [] ++ [0], []⟩)
        = some [-2, 0] ∧
    stackOf (initial_processing [.sym "/"] ⟨0 :: [9], [] ++ [0], []⟩)
        = some (0 :: [9]) ∧
    stackOf (initial_processing [.sym "^"] ⟨(0 : ℚ) :: 0 :: [3], [] ++ [0], []⟩)
        = some [3] :=
  ⟨C5_domain_error_stack_effects.1 (-1) [0] [] 0 [] (by norm_num),
   C5_domain_error_stack_effects.2.1 0 [7] [] 0 [] le_rfl,
   C5_domain_error_stack_effects.2.2.1 (-2) [0] [] 0 [] (by norm_num),
   C5_domain_error_stack_effects.2.2.2.1 [9] [] 0 [],
   C5_domain_error_stack_effects.2.2.2.2 0 0 [3] [] 0 [] (by decide)⟩

/-- C9.  Contrary to the claim, the token `lastx` is not recognized by
the evaluator: its `commands` registry entry is commented out in the
source (ada.py:3356), so `process_item` takes the unrecognized-symbol
branch, reports, and leaves the state unchanged — `get_lastx` is
unreachable.  Evaluating `4 5 ^ lastx` therefore ends with top `1024`
and pushes nothing, while the claim requires `5` (the `x:` value from
immediately before `^`) to be pushed.  The history buffer itself is
rolled before every top-level item, ending as `[5, 1024]`. -/
theorem C9_lastx_not_recognized :
    initial_processing [.num 4, .num 5, .sym "^", .sym "lastx"]
        ⟨[0, 0, 0, 0], [0], []⟩
      = .ok ⟨[1024, 0, 0, 0, 0], [5, 1024], []⟩ ∧
    ("lastx" ∈ op1keys ∨ "lastx" ∈ op2keys ∨ "lastx" ∈ commandsKeys ∨
        "lastx" ∈ shortcutsKeys ∨ "lastx" ∈ constantsKeys) = False ∧
    ∀ st : EvalState, process_item st (.sym "lastx") = .ok st := by
  refine ⟨?_, by simp [op1keys, op2keys, commandsKeys, shortcutsKeys,
    constantsKeys], fun st => ?_⟩
  · simp [initial_processing, evalLoop, isShortcutItem, shortcutsKeys,
      process_item, op1keys, op2keys, commandsKeys, constantsKeys, regNames,
      math_op2, power, powRaises, powVal, splitAtClose]
    norm_num
  · simp [process_item, op1keys, op2keys, commandsKeys, shortcutsKeys,
      constantsKeys, regNames]

theorem toItem_ok (a b c d : ℚ) (rest : List ℚ) (run : List Char) :
    ∃ o, toItem (a :: b :: c :: d :: rest) run = .ok o := by
  simp only [toItem]
  split_ifs
  · exact ⟨some (.num a), by simp⟩
  · exact ⟨some (.num b), by simp⟩
  · exact ⟨some (.num c), by simp⟩
  · exact ⟨some (.num d), by simp⟩
  · exact ⟨none, rfl⟩
  · exact ⟨none, rfl⟩
  · exact ⟨some (.sym (String.mk run)), rfl⟩
  · cases hp : parseDec run with
    | none => exact ⟨some (.sym (String.mk run)), by simp [hp]⟩
    | some q => exact ⟨some (.num q), by simp [hp]⟩

theorem collectItems_ok (a b c d : ℚ) (rest : List ℚ) (runs : List (List Char)) :
    ∃ its, collectItems (a :: b :: c :: d :: rest) runs = .ok its := by
  induction runs with
  | nil => exact ⟨[], rfl⟩
  | cons r rs ih =>
    obtain ⟨o, ho⟩ := toItem_ok a b c d rest r
    obtain ⟨its, hits⟩ := ih
    cases o with
    | none => exact ⟨its, by simp [collectItems, ho, hits]⟩
    | some it => exact ⟨it :: its, by simp [collectItems, ho, hits]⟩

/-- C6 counterexample.  The line `zz:` produces the single token
`Symbol "zz:"` — no register reference is substituted — yet tokenizing
it resets stack slot 2 (the `z:` register) to `0`, because the reset
test is a substring test on the raw line; so a slot not referenced on
the line is not left unchanged. -/
theorem C6_reset_without_reference_counterexample :
    parse_entry [1, 2, 3, 4] ("zz:").data = .ok ([1, 2, 0, 4], [.sym "zz:"]) ∧
    ([1, 2, 0, 4] : List ℚ) ≠ [1, 2, 3, 4] := ⟨rfl, by decide⟩

/-- C6 as amended.  A token that is exactly `x:`/`y:`/`z:`/`t:` is
substituted with the current value of stack slot 0/1/2/3 at tokenize
time; but once the line has been scanned, slot `i` is reset to `0`
exactly when the two-character reference text occurs *as a substring*
of the comma-stripped line — whether or not it was substituted — and
only slots whose reference text does not occur are left unchanged.
Deeper positions are never touched. -/
theorem C6_register_consumption :
    (∀ (cs : List Char) (a b c d : ℚ) (rest : List ℚ), ∃ items,
      parse_entry (a :: b :: c :: d :: rest) cs =
        .ok ((if occursIn ['x', ':'] (cs.filter (· ≠ ',')) then 0 else a) ::
             (if occursIn ['y', ':'] (cs.filter (· ≠ ',')) then 0 else b) ::
             (if occursIn ['z', ':'] (cs.filter (· ≠ ',')) then 0 else c) ::
             (if occursIn ['t', ':'] (cs.filter (· ≠ ',')) then 0 else d) ::
             rest, items)) ∧
    ∀ (a b c d : ℚ) (rest : List ℚ),
      parse_entry (a :: b :: c :: d :: rest) ("y: 5 +").data =
        .ok (a :: 0 :: c :: d :: rest, [.num b, .num 5, .sym "+"]) := by
  constructor
  · intro cs a b c d rest
    obtain ⟨its, hits⟩ :=
      collectItems_ok a b c d rest (scan (cs.filter (· ≠ ',')))
    refine ⟨its, ?_⟩
    simp only [parse_entry, hits, ok_bind, applyResets]
    split_ifs <;> simp
  · intro a b c d rest
    rfl

/-- C7.  Contrary to the invariant, `M-` (`mem_sub`) accepts a zero (or
negative) integer register id: with `x: = 7, y: = 0` it creates
register `0` holding `7`, where the claim requires a reported error and
an unchanged register map; a fractional id makes `mem_sub` raise an
uncaught `AttributeError` (`window.addst`) instead of reporting.  `M+`
(`mem_add`) does reject id `0` and leaves stack and registers
unchanged. -/
theorem C7_mem_sub_creates_register_zero :
    mem_sub [7, 0] [] = .ok ([], [(0, 7)]) ∧
    memFind [((0 : ℚ), (7 : ℚ))] 0 = some 7 ∧
    mem_sub [7, (Rat.mk' 5 2 (by norm_num) (by norm_num))] []
      = .error .attributeError ∧
    mem_add [7, 0] [] = .ok ([7, 0], []) := by
  refine ⟨rfl, rfl, ?_, rfl⟩
  simp [mem_sub, stkGet]

/-! ### Lemmas for `mem_del` -/

theorem memPop_isSome (m : Mem) (k : ℚ) :
    (memPop m k).isSome = memHasKey m k := by
  induction m with
  | nil => rfl
  | cons p rest ih =>
    simp only [memPop, memHasKey, memFind]
    split
    · simp
    · simpa [memHasKey] using ih

theorem memFind_memPop_ne (m : Mem) (k k' : ℚ) (hne : k' ≠ k) :
    ∀ m2, memPop m k = some m2 → memFind m2 k' = memFind m k' := by
  induction m with
  | nil => intro m2 h; simp [memPop] at h
  | cons p rest ih =>
    intro m2 h
    simp only [memPop] at h
    by_cases hp : p.1 = k
    · rw [if_pos hp] at h
      cases h
      simp [memFind, hp, Ne.symm hne]
    · rw [if_neg hp] at h
      cases hr : memPop rest k with
      | none => simp [hr] at h
      | some r2 =>
        simp only [hr, Option.map_some] at h
        cases h
        simp only [memFind]
        split
        · rfl
        · exact ih r2 hr

theorem takeWhileCongr {α : Type} (p q : α → Bool) :
    ∀ l : List α, (∀ a ∈ l, p a = q a) → l.takeWhile p = l.takeWhile q := by
  intro l
  induction l with
  | nil => intro _; rfl
  | cons a l ih =>
    intro h
    have ha := h a (List.mem_cons_self a l)
    simp only [List.takeWhile_cons, ha]
    split
    · rw [ih (fun x hx => h x (List.mem_cons_of_mem a hx))]
    · rfl

/-- The deletion loop equals the spec-level description: it removes and
reports exactly the longest prefix of the ascending range whose keys
all exist in the *initial* register map. -/
theorem delLoop_eq (count : ℕ) : ∀ (m : Mem) (i : ℕ) (acc : List ℕ),
    (delLoop m i count acc).1 =
      ((List.range' i count).takeWhile
          (fun (k : ℕ) => memHasKey m (k : ℚ))).foldl
        (fun (mm : Mem) (k : ℕ) => (memPop mm (k : ℚ)).getD mm) m ∧
    (delLoop m i count acc).2.1 =
      acc ++ (List.range' i count).takeWhile
          (fun (k : ℕ) => memHasKey m (k : ℚ)) := by
  induction count with
  | zero => intro m i acc; simp [delLoop]
  | succ c ih =>
    intro m i acc
    have hrange : List.range' i (c + 1) = i :: List.range' (i + 1) c :=
      List.range'_succ i c 1 ▸ rfl
    simp only [delLoop]
    cases hp : memPop m (i : ℚ) with
    | none =>
      have hk : memHasKey m (i : ℚ) = false := by
        rw [← memPop_isSome, hp]
        rfl
      simp [hrange, List.takeWhile_cons, hk]
    | some m2 =>
      have hk : memHasKey m (i : ℚ) = true := by
        rw [← memPop_isSome, hp]
        rfl
      have hcong :
          (List.range' (i + 1) c).takeWhile
              (fun (k : ℕ) => memHasKey m2 (k : ℚ)) =
          (List.range' (i + 1) c).takeWhile
              (fun (k : ℕ) => memHasKey m (k : ℚ)) := by
        apply takeWhileCongr
        intro k hk'
        have hki : i + 1 ≤ k := (List.mem_range'_1.mp hk').1
        have hne : (k : ℚ) ≠ (i : ℚ) := by
          simp only [ne_eq, Nat.cast_inj]
          omega
        simp only [memHasKey, memFind_memPop_ne m (i : ℚ) (k : ℚ) hne m2 hp]
      obtain ⟨ih1, ih2⟩ := ih m2 (i + 1) (acc ++ [i])
      constructor
      · rw [ih1, hrange, List.takeWhile_cons, hk]
        simp [hcong, hp]
      · rw [ih2, hrange, List.takeWhile_cons, hk]
        simp [hcong]

theorem qtrunc_abs_natCast (n : ℕ) : (qtrunc |(n : ℚ)|).toNat = n := by
  rw [abs_of_nonneg (by positivity : (0 : ℚ) ≤ (n : ℚ))]
  simp [qtrunc, Nat.cast_nonneg]

/-- C8.  `mem_del` on a confirmed range request with positive bounds
normalizes the bound order, deletes existing registers in ascending
order, stops at the first missing key, reports exactly the keys deleted
before stopping, and retains everything above the first missing key —
precisely the behaviour `delRangeSpec` transcribes from the spec.  In
particular, with only registers 1 and 3 present, deleting `[1, 5]`
removes register 1, reports it, and leaves register 3. -/
theorem C8_delete_range_short_circuits :
    (∀ (lo hi : ℕ) (rest : List ℚ) (m : Mem), 0 < lo → 0 < hi →
      mem_del true ((lo : ℚ) :: (hi : ℚ) :: rest) m =
        .ok ((lo : ℚ) :: (hi : ℚ) :: rest, delRangeSpec lo hi m)) ∧
    mem_del true [1, 5] [((1 : ℚ), 453), ((3 : ℚ), 10)] =
      .ok ([1, 5], [((3 : ℚ), 10)], [1]) := by
  constructor
  · intro lo hi rest m hlo hhi
    simp only [mem_del, stkGet_cons_zero, stkGet_cons_succ, ok_bind,
      qtrunc_abs_natCast]
    by_cases hswap : lo > hi ∧ hi ≠ 0
    · rw [if_pos hswap]
      have hb0 : ¬ lo = 0 := by omega
      rw [if_neg hb0, if_pos trivial]
      dsimp only
      obtain ⟨h1, h2⟩ := delLoop_eq (lo + 1 - hi) m hi []
      simp only [delRangeSpec, h1, h2, List.nil_append]
      have hmin : min lo hi = hi := by omega
      have hmax : max lo hi = lo := by omega
      rw [hmin, hmax]
    · rw [if_neg hswap]
      have hb0 : ¬ hi = 0 := by omega
      rw [if_neg hb0, if_pos trivial]
      dsimp only
      obtain ⟨h1, h2⟩ := delLoop_eq (hi + 1 - lo) m lo []
      simp only [delRangeSpec, h1, h2, List.nil_append]
      have hle : lo ≤ hi := by
        rcases not_and_or.mp hswap with h | h
        · omega
        · omega
      have hmin : min lo hi = lo := by omega
      have hmax : max lo hi = hi := by omega
      rw [hmin, hmax]
  · have e1 : (qtrunc |(1 : ℚ)|).toNat = 1 := by norm_num [qtrunc]
    have e5 : (qtrunc |(5 : ℚ)|).toNat = 5 := by
      have h5 : qtrunc |(5 : ℚ)| = 5 := by norm_num [qtrunc]
      rw [h5]
      rfl
    simp only [mem_del, stkGet_cons_zero, stkGet_cons_succ, ok_bind, e1, e5]
    norm_num [delLoop, memPop, memFind]

/-- Witness for C8's range theorem at `lo = 1, hi = 5` over registers
`{1, 3}`. -/
theorem C8_delete_range_short_circuits_w :
    mem_del true (((1 : ℕ) : ℚ) :: ((5 : ℕ) : ℚ) :: [])
        [((1 : ℚ), 453), ((3 : ℚ), 10)] =
      .ok (((1 : ℕ) : ℚ) :: ((5 : ℕ) : ℚ) :: [],
        delRangeSpec 1 5 [((1 : ℚ), 453), ((3 : ℚ), 10)]) :=
  C8_delete_range_short_circuits.1 1 5 [] [((1 : ℚ), 453), ((3 : ℚ), 10)]
    (by decide) (by decide)

end ada
